import Mathlib

/-!
Verification of the computational core of the `chanthr.github.io` backend
(`finance_agent.py`, `predictor.py`, `predict_agent.py`, `news_agent.py`).

Embedding conventions:
* Python floats are modelled by exact rationals `ℚ` (the claims under study are
  structural — branching, null-propagation, rounding identities — not about
  binary floating-point representation error).  IEEE infinities produced by
  division by zero feed, in the source, into `replace([inf,-inf], nan).dropna()`
  steps; we model such divisions directly as `none` (dropped).  `math.tanh`,
  `math.exp` and ages are modelled over `ℝ`.
* `None`/`NaN` cells are `Option` values; pandas column operations are
  translated column-wise on `List (Option ℚ)`.
* Python `round(x, k)` (banker's rounding on floats) is modelled with
  Mathlib's `round` (half-up); every concrete value used in a theorem below is
  tie-free, where the two coincide.
* Python strings are Lean `String`s; `str.strip`/`lower`/`in` are re-implemented
  on `String.data` (ASCII whitespace and ASCII case; the concrete titles and
  links appearing in theorems are within this fragment).
-/

/-! ## Shared Python string primitives -/

/-- ASCII whitespace recognised by `str.strip()` (the concrete strings used in
the theorems contain no other whitespace). -/
def isWs (c : Char) : Bool :=
  (c == ' ') || (c == '\t') || (c == '\n') || (c == '\r') || (c == '\x0b') || (c == '\x0c')

/-- Python `s.strip()`. -/
def pyStrip (s : String) : String :=
  ⟨((s.data.dropWhile isWs).reverse.dropWhile isWs).reverse⟩

/-- Python `s.lower()` (ASCII). -/
def pyLower (s : String) : String := ⟨s.data.map Char.toLower⟩

/-- Python `s.upper()` (ASCII). -/
def pyUpper (s : String) : String := ⟨s.data.map Char.toUpper⟩

/-- Is `p` a (list) prefix of `l`? -/
def isPreOf : List Char → List Char → Bool
  | [], _ => true
  | _ :: _, [] => false
  | a :: as, b :: bs => a == b && isPreOf as bs

/-- Is `needle` an infix of `l`? -/
def infixOf (needle : List Char) : List Char → Bool
  | [] => isPreOf needle []
  | c :: cs => isPreOf needle (c :: cs) || infixOf needle cs

/-- Python `needle in hay` on strings. -/
def containsSub (hay needle : String) : Bool := infixOf needle.data hay.data

/-! ## finance_agent.py -/

/-- A pandas statement DataFrame: rows are `(label, cells)` in index order; the
cells of a row are listed in most-recent-first column order (the source sorts
`df.columns` descending before scanning; we take that order as given).
Non-numeric cells (which the source skips via `float(val)` + `except`) are
already `none`. -/
def DF := List (String × List (Option ℚ))

instance : DecidableEq DF := by unfold DF; infer_instance

/-- Models `dict` upsert: replace the value at an existing key (keeping its position),
else append — the semantics of a Python dict comprehension with colliding
keys (first-occurrence order, last-wins value). -/
def upsert (k : String) (v : List (Option ℚ)) :
    List (String × List (Option ℚ)) → List (String × List (Option ℚ))
  | [] => [(k, v)]
  | (k', v') :: t => if k' = k then (k, v) :: t else (k', v') :: upsert k v t

/-- Models `{str(idx).strip().lower(): idx for idx in df.index}` (values resolved to
the row's cells). -/
def buildLowerMap (rows : List (String × List (Option ℚ))) :
    List (String × List (Option ℚ)) :=
  rows.foldl (fun m r => upsert (pyLower (pyStrip r.1)) r.2 m) []

/-- Models `df is None or df.empty` (a DataFrame with no rows). -/
def dfMissing : Option DF → Bool
  | none => true
  | some d => d.isEmpty

/-- Models `_latest_value_from_df`: scan aliases in priority order; match
case-insensitively by substring against row labels; within a matching row
return the first non-null cell (most-recent column first); a matching row with
no non-null cell is skipped. -/
def latest_value_from_df (df : Option DF) (aliases : List String) : Option ℚ :=
  match df with
  | none => none
  | some rows =>
    if rows.isEmpty then none
    else
      let m := buildLowerMap rows
      aliases.findSome? fun a0 =>
        let al := pyLower (pyStrip a0)
        m.findSome? fun kv =>
          if containsSub kv.1 al then kv.2.findSome? id else none

/-- Models `_sum_if_present`. -/
def sum_if_present (vals : List (Option ℚ)) : Option ℚ :=
  let present := vals.filterMap id
  if present.isEmpty then none else some present.sum

/-- Models `_safe_div`: `None` if the numerator is `None` or the denominator is
`None` or `0`; otherwise exact division. -/
def safe_div (a b : Option ℚ) : Option ℚ :=
  match a, b with
  | none, _ => none
  | _, none => none
  | some x, some y => if y = 0 then none else some (x / y)

/-- Python `a or b` on `float|None` values: `a` is replaced by `b` when `a` is
`None` *or* `0.0` (both falsy). -/
def pyOrNum (a b : Option ℚ) : Option ℚ :=
  match a with
  | none => b
  | some v => if v = 0 then b else some v

/-- Models `_band`. -/
def bandOf (val : Option ℚ) (good fair : ℚ) (hib : Bool) : String :=
  match val with
  | none => "N/A"
  | some v =>
    if hib then
      if good ≤ v then "Strong" else if fair ≤ v then "Fair" else "Weak"
    else
      if v ≤ good then "Strong" else if v ≤ fair then "Fair" else "Weak"

/-- The statement tables `compute_ratios_for_ticker` pulls from yfinance. -/
structure Snapshot where
  qbs : Option DF       -- t.quarterly_balance_sheet
  annualBs : Option DF  -- t.balance_sheet
  qfin : Option DF      -- t.quarterly_financials
  qis : Option DF       -- t.quarterly_income_stmt
  annualIs : Option DF  -- t.income_stmt
  qcf : Option DF       -- t.quarterly_cashflow
  annualCf : Option DF  -- t.cashflow
deriving DecidableEq

/-- Company/price metadata resolved before the ratio computation (network
lookups abstracted as given inputs). -/
structure TickerInfo where
  company : String
  tickerSym : String
  sector : Option String
  price : Option ℚ
deriving DecidableEq

structure RatioEntry where
  value : Option ℚ
  band : String
deriving DecidableEq

structure RatioReport where
  company : String
  tickerU : String
  sector : Option String
  price : Option ℚ
  liquidity : List (String × RatioEntry)
  solvency : List (String × RatioEntry)
  notes : String
deriving DecidableEq

/-- The balance sheet actually used: quarterly, falling back to annual. -/
def bsSelected (sn : Snapshot) : Option DF :=
  if dfMissing sn.qbs then sn.annualBs else sn.qbs

/-- Models `compute_ratios_for_ticker` (statement data passed in; yfinance I/O
abstracted). -/
def compute_ratios_for_ticker (info : TickerInfo) (sn : Snapshot) : RatioReport :=
  let q_bs := bsSelected sn
  let q_is := if dfMissing sn.qfin then sn.qis else sn.qfin
  let a_is := sn.annualIs
  let q_cf := sn.qcf
  let a_cf := sn.annualCf
  if dfMissing q_bs then
    { company := info.company, tickerU := pyUpper info.tickerSym,
      sector := info.sector, price := info.price,
      liquidity := [], solvency := [],
      notes := "대차대조표를 찾지 못했습니다. 거래소 접미사(.KS, .T, .HK 등) 확인." }
  else
    let current_assets := latest_value_from_df q_bs ["total current assets", "current assets"]
    let current_liabilities := latest_value_from_df q_bs ["total current liabilities", "current liabilities"]
    let inventory := latest_value_from_df q_bs ["inventory"]
    let cash := latest_value_from_df q_bs
      ["cash and cash equivalents",
       "cash and cash equivalents including short-term investments",
       "cash and short term investments",
       "cash and short-term investments",
       "cash"]
    let short_term_invest := latest_value_from_df q_bs ["short term investments", "short-term investments"]
    let cash_like := sum_if_present [cash, short_term_invest]
    let total_assets := latest_value_from_df q_bs ["total assets"]
    let total_liabilities := latest_value_from_df q_bs ["total liabilities"]
    let equity := latest_value_from_df q_bs
      ["total stockholder equity", "total shareholders equity", "total equity"]
    let short_lt_debt := latest_value_from_df q_bs
      ["short long term debt", "current portion of long term debt", "short-term debt"]
    let long_term_debt := latest_value_from_df q_bs ["long term debt"]
    let total_debt := pyOrNum (latest_value_from_df q_bs ["total debt"])
      (sum_if_present [short_lt_debt, long_term_debt])
    let ebit :=
      match (if dfMissing q_is then none
             else latest_value_from_df q_is ["ebit", "operating income", "earnings before interest and taxes"]) with
      | some v => some v
      | none =>
        if dfMissing a_is then none
        else latest_value_from_df a_is ["ebit", "operating income", "earnings before interest and taxes"]
    let interest_expense :=
      match (if dfMissing q_is then none
             else latest_value_from_df q_is ["interest expense", "interest expense non operating"]) with
      | some v => some v
      | none =>
        match (if dfMissing a_is then none
               else latest_value_from_df a_is ["interest expense", "interest expense non operating"]) with
        | some v => some v
        | none =>
          match (if dfMissing q_cf then none
                 else latest_value_from_df q_cf ["interest paid"]) with
          | some v => some v
          | none =>
            if dfMissing a_cf then none
            else latest_value_from_df a_cf ["interest paid"]
    let current_ratio := safe_div current_assets current_liabilities
    let quick_ratio := safe_div
      (match current_assets, inventory with
       | some ca, some inv => some (ca - inv)
       | _, _ => none)
      current_liabilities
    let cash_ratio := safe_div cash_like current_liabilities
    let debt_to_equity := safe_div total_debt equity
    let debt_ratio := safe_div total_liabilities total_assets
    let interest_cov :=
      match ebit, interest_expense with
      | some e, some ie => if |ie| = 0 then none else some (e / |ie|)
      | _, _ => none
    { company := info.company, tickerU := pyUpper info.tickerSym,
      sector := info.sector, price := info.price,
      liquidity :=
        [("current_ratio", ⟨current_ratio, bandOf current_ratio (3/2) 1 true⟩),
         ("quick_ratio", ⟨quick_ratio, bandOf quick_ratio 1 (4/5) true⟩),
         ("cash_ratio", ⟨cash_ratio, bandOf cash_ratio (1/2) (1/5) true⟩)],
      solvency :=
        [("debt_to_equity", ⟨debt_to_equity, bandOf debt_to_equity 1 2 false⟩),
         ("debt_ratio", ⟨debt_ratio, bandOf debt_ratio (1/2) (7/10) false⟩),
         ("interest_coverage", ⟨interest_cov, bandOf interest_cov 5 2 true⟩)],
      notes := "Latest quarterly (fallback to annual) statements via yfinance; ratios are approximations." }

/-- The early-return report produced when no balance sheet is available. -/
def missingBsReport (info : TickerInfo) : RatioReport :=
  { company := info.company, tickerU := pyUpper info.tickerSym,
    sector := info.sector, price := info.price,
    liquidity := [], solvency := [],
    notes := "대차대조표를 찾지 못했습니다. 거래소 접미사(.KS, .T, .HK 등) 확인." }

theorem bandOf_na_iff (val : Option ℚ) (good fair : ℚ) (hib : Bool) :
    bandOf val good fair hib = "N/A" ↔ val = none := by
  cases val with
  | none => simp [bandOf]
  | some v =>
    simp only [bandOf]
    constructor
    · intro h
      cases hib <;> simp only [Bool.false_eq_true, if_true, if_false] at h <;>
        split at h <;> first | (split at h <;> simp_all) | simp_all
    · intro h; cases h

/-- C1: ratio extraction is a total function of its statement snapshot: when
the balance sheet (quarterly, after the annual fallback) is missing or empty it
returns the fixed early report — empty ratio maps (hence every ratio present is
`N/A`) plus the diagnostic note — instead of failing; and in every report each
ratio entry has band `N/A` exactly when its value is null. -/
theorem ratio_extract_missing_bs_all_na (info : TickerInfo) (sn : Snapshot) :
    (dfMissing (bsSelected sn) = true →
      compute_ratios_for_ticker info sn = missingBsReport info) ∧
    ∀ e ∈ (compute_ratios_for_ticker info sn).liquidity ++
          (compute_ratios_for_ticker info sn).solvency,
      (e.2.band = "N/A" ↔ e.2.value = none) := by
  constructor
  · intro h
    simp [compute_ratios_for_ticker, missingBsReport, h]
  · by_cases h : dfMissing (bsSelected sn) = true
    · simp [compute_ratios_for_ticker, h]
    · simp only [compute_ratios_for_ticker, h, if_false, Bool.false_eq_true]
      intro e he
      simp only [List.mem_append, List.mem_cons, List.mem_singleton,
        List.not_mem_nil, or_false] at he
      rcases he with (rfl | rfl | rfl) | (rfl | rfl | rfl) <;>
        exact bandOf_na_iff _ _ _ _

/-- An all-missing statement snapshot. -/
def snNone : Snapshot := ⟨none, none, none, none, none, none, none⟩

def infoT : TickerInfo := ⟨"TestCo", "tst", none, none⟩

theorem ratio_extract_missing_bs_all_na_witness :
    compute_ratios_for_ticker infoT snNone = missingBsReport infoT :=
  (ratio_extract_missing_bs_all_na infoT snNone).1 (by decide)

/-- Snapshot realising spec scenario 2: `EBIT = 500`, `interest_expense = 0`
(plus a minimal non-empty balance sheet so the early return is not taken). -/
def sn5 : Snapshot :=
  { qbs := some [("Total Assets", [some 1000])], annualBs := none,
    qfin := some [("EBIT", [some 500]), ("Interest Expense", [some 0])],
    qis := none, annualIs := none, qcf := none, annualCf := none }

/-- C5: safe division returns null whenever the denominator is null or zero
(never failing), and in the concrete scenario `EBIT = 500`,
`interest_expense = 0` the computed solvency block reports
`interest_coverage = null` with band `N/A` — no exception. -/
theorem safe_div_null_on_bad_denominator :
    (∀ a b : Option ℚ, b = none ∨ b = some 0 → safe_div a b = none) ∧
    (compute_ratios_for_ticker infoT sn5).solvency =
      [("debt_to_equity", ⟨none, "N/A"⟩),
       ("debt_ratio", ⟨none, "N/A"⟩),
       ("interest_coverage", ⟨none, "N/A"⟩)] := by
  constructor
  · rintro a b (rfl | rfl) <;> cases a <;> simp [safe_div]
  · decide

theorem safe_div_null_on_bad_denominator_witness :
    safe_div (some 5) (some 0) = none :=
  safe_div_null_on_bad_denominator.1 (some 5) (some 0) (Or.inr rfl)

/-! ## predictor.py / predict_agent.py

Price history is a list of `Option ℚ` closes (`none` = NaN).  pandas column
operations are modelled column-wise.  Caveats recorded here once:
* `pct_change`'s pad-fill over interior NaN gaps and `ewm`'s absolute-position
  reweighting after interior gaps are not modelled — no series appearing in a
  theorem below has an interior NaN.
* a division by zero inside a feature produces `±inf` in pandas, which the
  source immediately sends through `replace([inf,-inf], nan).dropna()`; we
  model it as `none` directly.  In the target column `y` such a row would
  survive `dropna` as `inf` in Python; no theorem below touches that case.
* sklearn's `Ridge` fit/predict is an external library, abstracted as an
  oracle argument `ridge` (its output value is irrelevant to every claim).
-/

def Series := List (Option ℚ)

instance : DecidableEq Series := by unfold Series; infer_instance

/-- Python `round(x, k)` (see header note on tie behaviour). -/
def roundTo (k : ℕ) (x : ℚ) : ℚ := ((round (x * 10 ^ k) : ℤ) : ℚ) / 10 ^ k

/-- Models `"BUY" if pred_ret > 0.01 else ("SELL" if pred_ret < -0.01 else "HOLD")`. -/
def signalOf (r : ℚ) : String :=
  if 1 / 100 < r then "BUY" else if r < -(1 / 100) then "SELL" else "HOLD"

structure PredResult where
  last_close : ℚ
  pred_ret_1d : ℚ
  pred_close_1d : ℚ
  signal : String
  ts : ℤ
  live_price : Option ℚ := none
deriving DecidableEq

/-- The result dict built (identically) at the end of `_predict_core` and of
`_predict_fallback`: rounded close/return/forecast, the threshold signal of the
*unrounded* return, and the epoch timestamp. -/
def mkResult (ts : ℤ) (lc pr : ℚ) : PredResult :=
  { last_close := roundTo 4 lc, pred_ret_1d := roundTo 6 pr,
    pred_close_1d := roundTo 4 (lc * (1 + pr)), signal := signalOf pr, ts := ts }

def obind2 (f : ℚ → ℚ → Option ℚ) : Option ℚ → Option ℚ → Option ℚ
  | some a, some b => f a b
  | _, _ => none

/-- Models `series.diff()`. -/
def diffCol : List (Option ℚ) → List (Option ℚ)
  | [] => []
  | l@(_ :: _) =>
    none :: List.zipWith (obind2 fun prev cur => some (cur - prev)) l (l.drop 1)

/-- Models `series.pct_change()`. -/
def ret1Col : List (Option ℚ) → List (Option ℚ)
  | [] => []
  | l@(_ :: _) =>
    none :: List.zipWith
      (obind2 fun prev cur => if prev = 0 then none else some (cur / prev - 1))
      l (l.drop 1)

/-- The size-`w` window ending at index `i`. -/
def windowAt (w : ℕ) (l : List (Option ℚ)) (i : ℕ) : List (Option ℚ) :=
  (l.take (i + 1)).drop (i + 1 - w)

def allSome : List (Option ℚ) → Option (List ℚ)
  | [] => some []
  | none :: _ => none
  | some x :: t => (allSome t).map (x :: ·)

/-- Models `series.rolling(w).mean()` at index `i` (default `min_periods = w`: NaN
unless the window is full and entirely non-NaN). -/
def rollingMeanAt (w : ℕ) (l : List (Option ℚ)) (i : ℕ) : Option ℚ :=
  if w ≤ i + 1 then
    match allSome (windowAt w l i) with
    | some vs => some (vs.sum / w)
    | none => none
  else none

def rollingCol (w : ℕ) (l : List (Option ℚ)) : List (Option ℚ) :=
  (List.range l.length).map (rollingMeanAt w l)

/-- Models `series.ewm(alpha = a, adjust = False).mean()` (state machine; leading
NaNs stay NaN, the first value seeds the mean). -/
def ewmO (a : ℚ) : Option ℚ → List (Option ℚ) → List (Option ℚ)
  | _, [] => []
  | none, none :: t => none :: ewmO a none t
  | none, some v :: t => some v :: ewmO a (some v) t
  | some m, none :: t => some m :: ewmO a (some m) t
  | some m, some v :: t =>
    some ((1 - a) * m + a * v) :: ewmO a (some ((1 - a) * m + a * v)) t

def ewmCol (a : ℚ) (l : List (Option ℚ)) : List (Option ℚ) := ewmO a none l

def zipSub (f g : List (Option ℚ)) : List (Option ℚ) :=
  List.zipWith (obind2 fun x y => some (x - y)) f g

/-- Models `_rsi(series, 14)`: Wilder smoothing `ewm(alpha = 1/14)` of clipped
gains/losses; a zero average loss is `replace`d by NaN before dividing. -/
def rsiCol (l : List (Option ℚ)) : List (Option ℚ) :=
  let d := diffCol l
  let up := ewmCol (1 / 14) (d.map (Option.map fun x => max x 0))
  let dn := ewmCol (1 / 14) (d.map (Option.map fun x => max (-x) 0))
  List.zipWith
    (obind2 fun u v =>
      if v = 0 then none
      else if 1 + u / v = 0 then none
      else some (100 - 100 / (1 + u / v)))
    up dn

/-- Models `_macd(series)`: EMA12 − EMA26, its EMA9 signal, and the histogram
(`ewm(span = s)` has `alpha = 2/(s+1)`). -/
def macdCols (l : List (Option ℚ)) :
    List (Option ℚ) × List (Option ℚ) × List (Option ℚ) :=
  let f := ewmCol (2 / 13) l
  let s := ewmCol (2 / 27) l
  let m := zipSub f s
  let sg := ewmCol (2 / 10) m
  (m, sg, zipSub m sg)

/-- Models `sma{w}` feature: `px.rolling(w).mean() / px − 1`. -/
def smaDevCol (w : ℕ) (l : List (Option ℚ)) : List (Option ℚ) :=
  List.zipWith (obind2 fun m p => if p = 0 then none else some (m / p - 1))
    (rollingCol w l) l

structure Feat where
  ret1 : ℚ
  sma5 : ℚ
  sma20 : ℚ
  rsi14 : ℚ
  macd : ℚ
  macdSig : ℚ
  macdHist : ℚ
deriving DecidableEq

def colGet (l : List (Option ℚ)) (i : ℕ) : Option ℚ := l.getD i none

/-- Row `i` of the feature frame, `none` when any feature is NaN/∞ (the
`replace(...).dropna()` step). -/
def featRowOpt (s : Series) (i : ℕ) : Option Feat :=
  match macdCols s with
  | (m, sg, h) =>
    match colGet (ret1Col s) i, colGet (smaDevCol 5 s) i, colGet (smaDevCol 20 s) i,
          colGet ((rsiCol s).map (Option.map (· / 100))) i,
          colGet m i, colGet sg i, colGet h i with
    | some a, some b, some c, some d, some e, some f, some g =>
      some ⟨a, b, c, d, e, f, g⟩
    | _, _, _, _, _, _, _ => none

/-- Models `X = _features(df)` (rows surviving `dropna`, in index order). -/
def featuresRows (s : Series) : List Feat :=
  (List.range s.length).filterMap (featRowOpt s)

/-- Target: `close[i+1]/close[i] − 1` when both defined. -/
def yOpt (s : Series) (i : ℕ) : Option ℚ :=
  match colGet s (i + 1), colGet s i with
  | some nxt, some cur => if cur = 0 then none else some (nxt / cur - 1)
  | _, _ => none

/-- Models `data = concat([X, y]).dropna()`: rows with all features and target. -/
def alignedData (s : Series) : List (Feat × ℚ) :=
  (List.range s.length).filterMap fun i =>
    match featRowOpt s i, yOpt s i with
    | some f, some v => some (f, v)
    | _, _ => none

/-- Models `xs.ewm(span, adjust=False).mean().iloc[-1]` on an all-valid column. -/
def ewmLast (a : ℚ) : List ℚ → ℚ
  | [] => 0
  | h :: t => t.foldl (fun m x => (1 - a) * m + a * x) h

/-- Models `df["Close"].iloc[-1]` (a NaN final close, which Python would propagate
as NaN, is modelled as 0; no theorem depends on that case). -/
def lastVal (s : Series) : ℚ := (s.getLastD none).getD 0

/-- Models `_predict_core` (download abstracted to the given series; `int(len*0.8)`
modelled as floor). -/
def predict_core (hvSK : Bool) (ridge : List (Feat × ℚ) → List Feat → ℚ)
    (s : Series) (now : ℤ) : Except String PredResult :=
  if s.isEmpty then .error "no price" else
  if (alignedData s).length < 60 then .error "not enough data" else
  let X := featuresRows s
  let data := alignedData s
  let split := 8 * data.length / 10
  let train := data.take split
  let testX := (data.drop split).map Prod.fst
  let predRet := if hvSK then ridge train testX else ewmLast (2 / 11) (X.map Feat.ret1)
  .ok (mkResult now (lastVal s) predRet)

/-- Models `_predict_fallback` from `predict_agent.py`: mean of the last (≤)10 daily
returns over the valid closes. -/
def predict_fallback (s : Series) (now : ℤ) : Except String PredResult :=
  if s.isEmpty then .error "fallback: no price data" else
  if (s.filterMap id).length < 20 then .error "fallback: not enough data" else
  let close := s.filterMap id
  let rets := List.zipWith (fun a b => (b - a) / a) close (close.drop 1)
  let tail10 := if 10 ≤ rets.length then rets.drop (rets.length - 10) else rets
  .ok (mkResult now (close.getLastD 0) (tail10.sum / tail10.length))

/-- Models `predict_one`: serve from the cache when `force` is unset and the entry is
younger than the TTL; otherwise recompute (at the current time) and store. -/
def predict_one (ttl : ℚ) (coreAt : ℚ → Except String PredResult)
    (cache : Option PredResult) (force : Bool) (now : ℚ) :
    Except String (PredResult × Option PredResult) :=
  let go : Except String (PredResult × Option PredResult) :=
    match coreAt now with
    | .error e => .error e
    | .ok out => .ok (out, some out)
  match cache, force with
  | some r, false => if now - (r.ts : ℚ) < ttl then .ok (r, some r) else go
  | _, _ => go

/-- Models `p["live_price"] = round(float(live), 4)` when a live price is available
(`price_now` failures are already `none`). -/
def attachLive (live : Option ℚ) (r : PredResult) : PredResult :=
  match live with
  | none => r
  | some v => { r with live_price := some (roundTo 4 v) }

/-- Models `predict` from `predict_agent.py`: try `predictor.predict_one` (when the
module imports), fall back to `_predict_fallback` on any failure, then attach
the live price. -/
def predict_return (ttl : ℚ) (avail hvSK : Bool)
    (ridge : List (Feat × ℚ) → List Feat → ℚ) (cache : Option PredResult)
    (live : Option ℚ) (s : Series) (now : ℚ) : Except String PredResult :=
  let viaFb := (predict_fallback s ⌊now⌋).map (attachLive live)
  if avail then
    match predict_one ttl (fun t => predict_core hvSK ridge s ⌊t⌋) cache false now with
    | .ok (r, _) => .ok (attachLive live r)
    | .error _ => viaFb
  else viaFb

theorem alignedData_length_le (s : Series) : (alignedData s).length ≤ s.length := by
  unfold alignedData
  exact le_trans (List.length_filterMap_le _ _) (by simp)

theorem predict_core_err_small (hvSK : Bool) (ridge : List (Feat × ℚ) → List Feat → ℚ)
    (s : Series) (now : ℤ) (hne : s.isEmpty = false)
    (h : (alignedData s).length < 60) :
    predict_core hvSK ridge s now = .error "not enough data" := by
  unfold predict_core
  rw [hne]
  simp [h]

/-- C2 (amended): with the regression library unavailable, `_predict_core`
substitutes the EWMA (span 10, i.e. `alpha = 2/11`) of the `ret1` feature
column as the predicted return **only after** the `< 60` aligned-row gate has
passed; an empty download or fewer than 60 aligned feature/target rows yield
an error (absorbed one level up by `predict`'s simpler mean fallback), not the
EWMA result. -/
theorem predict_core_no_regression_behavior (ridge : List (Feat × ℚ) → List Feat → ℚ)
    (s : Series) (now : ℤ) :
    predict_core false ridge s now =
      if s.isEmpty then .error "no price"
      else if (alignedData s).length < 60 then .error "not enough data"
      else .ok (mkResult now (lastVal s)
        (ewmLast (2 / 11) ((featuresRows s).map Feat.ret1))) := by
  unfold predict_core
  by_cases he : s.isEmpty = true
  · rw [if_pos he, if_pos he]
  · rw [if_neg he, if_neg he]
    rfl

/-- A 25-close price series (all valid). -/
def series25 : Series :=
  [some 100, some 101, some 99, some 102, some 98, some 103, some 100, some 104,
   some 97, some 105, some 101, some 106, some 96, some 107, some 102, some 108,
   some 95, some 109, some 103, some 110, some 94, some 111, some 104, some 112,
   some 100]

/-- C2 counterexample: `series25` has 25 valid closes (so the spec's EWMA
fallback, which needs ≥ 20, would be feasible) and necessarily fewer than 60
aligned feature/target rows, yet `_predict_core` without the regression
library raises `"not enough data"` instead of returning the EWMA result. -/
theorem predict_core_small_history_raises :
    20 ≤ (series25.filterMap id).length ∧
    (alignedData series25).length < 60 ∧
    predict_core false (fun _ _ => 0) series25 0 = .error "not enough data" := by
  have h : (alignedData series25).length < 60 :=
    lt_of_le_of_lt (alignedData_length_le series25) (by decide)
  exact ⟨by decide, h, predict_core_err_small _ _ _ _ rfl h⟩

theorem predict_one_miss (ttl : ℚ) (coreAt : ℚ → Except String PredResult)
    (force : Bool) (now : ℚ) :
    predict_one ttl coreAt none force now =
      match coreAt now with
      | .error e => .error e
      | .ok out => .ok (out, some out) := by
  cases force <;> rfl

theorem predict_one_hit (ttl : ℚ) (coreAt : ℚ → Except String PredResult)
    (r : PredResult) (now : ℚ) (h : now - (r.ts : ℚ) < ttl) :
    predict_one ttl coreAt (some r) false now = .ok (r, some r) := by
  have hred : predict_one ttl coreAt (some r) false now =
      if now - (r.ts : ℚ) < ttl then .ok (r, some r)
      else
        match coreAt now with
        | .error e => .error e
        | .ok out => .ok (out, some out) := rfl
  rw [hred, if_pos h]

theorem predict_one_force (ttl : ℚ) (coreAt : ℚ → Except String PredResult)
    (cache : Option PredResult) (now : ℚ) :
    predict_one ttl coreAt cache true now =
      match coreAt now with
      | .error e => .error e
      | .ok out => .ok (out, some out) := by
  cases cache <;> rfl

/-- C8: with an empty cache, a first `predict_one` call computes and stores a
result stamped with the call time; a second call within the TTL (`force =
false`) returns the identical result — same `computed_at` — from the cache;
a later `force = true` call recomputes, stamping the new call time. -/
theorem predict_one_cache_roundtrip
    (ttl : ℚ) (coreAt : ℚ → Except String PredResult) (t1 t2 t3 : ℚ)
    (r1 r2 r3 : PredResult) (c1 c2 c3 : Option PredResult)
    (hstamp : ∀ t r, coreAt t = .ok r → r.ts = ⌊t⌋)
    (h1 : predict_one ttl coreAt none false t1 = .ok (r1, c1))
    (h2 : predict_one ttl coreAt c1 false t2 = .ok (r2, c2))
    (hin : t2 - (⌊t1⌋ : ℚ) < ttl)
    (h3 : predict_one ttl coreAt c2 true t3 = .ok (r3, c3)) :
    r2 = r1 ∧ r3.ts = ⌊t3⌋ ∧ (⌊t3⌋ ≠ ⌊t1⌋ → r3.ts ≠ r1.ts) := by
  rw [predict_one_miss] at h1
  revert h1
  cases hc1 : coreAt t1 with
  | error e => intro h1; exact absurd h1 (by simp)
  | ok out =>
    intro h1
    simp only [Except.ok.injEq, Prod.mk.injEq] at h1
    obtain ⟨h1a, h1c⟩ := h1
    have hot : out.ts = ⌊t1⌋ := hstamp t1 out hc1
    have hts1 : r1.ts = ⌊t1⌋ := by rw [← h1a]; exact hot
    rw [← h1c, predict_one_hit ttl coreAt out t2 (by rw [hot]; exact hin)] at h2
    simp only [Except.ok.injEq, Prod.mk.injEq] at h2
    obtain ⟨h2a, h2c⟩ := h2
    rw [predict_one_force] at h3
    revert h3
    cases hc3 : coreAt t3 with
    | error e => intro h3; exact absurd h3 (by simp)
    | ok out3 =>
      intro h3
      simp only [Except.ok.injEq, Prod.mk.injEq] at h3
      obtain ⟨h3a, _⟩ := h3
      have hts3 : r3.ts = ⌊t3⌋ := by rw [← h3a]; exact hstamp t3 out3 hc3
      refine ⟨by rw [← h2a]; exact h1a, hts3, fun hne => ?_⟩
      rw [hts3, hts1]
      exact hne

/-- A successful computation oracle that stamps the (floored) call time. -/
def coreAt0 : ℚ → Except String PredResult := fun t =>
  .ok { last_close := 0, pred_ret_1d := 0, pred_close_1d := 0, signal := "HOLD",
        ts := ⌊t⌋, live_price := none }

def rec0 : PredResult :=
  { last_close := 0, pred_ret_1d := 0, pred_close_1d := 0, signal := "HOLD",
    ts := 0, live_price := none }

def rec2000 : PredResult :=
  { last_close := 0, pred_ret_1d := 0, pred_close_1d := 0, signal := "HOLD",
    ts := 2000, live_price := none }

theorem predict_one_cache_roundtrip_witness :
    rec0 = rec0 ∧ rec2000.ts = ⌊(2000 : ℚ)⌋ ∧
      (⌊(2000 : ℚ)⌋ ≠ ⌊(0 : ℚ)⌋ → rec2000.ts ≠ rec0.ts) :=
  predict_one_cache_roundtrip 900 coreAt0 0 10 2000 rec0 rec0 rec2000
    (some rec0) (some rec0) (some rec2000)
    (fun t r h => by injection h with h'; rw [← h'])
    (by rw [predict_one_miss]; simp [coreAt0, rec0])
    (predict_one_hit 900 coreAt0 rec0 10 (by norm_num [rec0]))
    (by norm_num)
    (by rw [predict_one_force]; simp [coreAt0, rec2000])

/-! ### Feature-count lemmas: a surviving feature row forces ≥ 20 valid closes
(the 20-day rolling mean needs a full window of non-NaN values). -/

theorem allSome_eq_some (l : List (Option ℚ)) (vs : List ℚ)
    (h : allSome l = some vs) : l.filterMap id = vs ∧ vs.length = l.length := by
  induction l generalizing vs with
  | nil =>
    simp only [allSome, Option.some.injEq] at h
    subst h; exact ⟨rfl, rfl⟩
  | cons hd t ih =>
    cases hd with
    | none => simp [allSome] at h
    | some x =>
      simp only [allSome] at h
      cases ht : allSome t with
      | none => rw [ht] at h; simp at h
      | some ws =>
        rw [ht] at h
        simp only [Option.map_some', Option.some.injEq] at h
        subst h
        obtain ⟨h1, h2⟩ := ih ws ht
        simp [List.filterMap_cons, h1, h2]

theorem windowAt_sublist (w : ℕ) (l : List (Option ℚ)) (i : ℕ) :
    List.Sublist (windowAt w l i) l :=
  (List.drop_sublist _ _).trans (List.take_sublist _ _)

theorem windowAt_length (w : ℕ) (l : List (Option ℚ)) (i : ℕ)
    (h1 : w ≤ i + 1) (h2 : i < l.length) : (windowAt w l i).length = w := by
  simp only [windowAt, List.length_drop, List.length_take]
  omega

theorem rollingMeanAt_some_count (w : ℕ) (l : List (Option ℚ)) (i : ℕ)
    (hi : i < l.length) (q : ℚ) (h : rollingMeanAt w l i = some q) :
    w ≤ (l.filterMap id).length := by
  unfold rollingMeanAt at h
  by_cases hw : w ≤ i + 1
  · rw [if_pos hw] at h
    cases hs : allSome (windowAt w l i) with
    | none => rw [hs] at h; exact absurd h (by simp)
    | some vs =>
      obtain ⟨hfm, hlen⟩ := allSome_eq_some _ _ hs
      have hsub : List.Sublist ((windowAt w l i).filterMap id) (l.filterMap id) :=
        (windowAt_sublist w l i).filterMap id
      have := hsub.length_le
      rw [hfm, hlen, windowAt_length w l i hw hi] at this
      exact this
  · rw [if_neg hw] at h
    exact absurd h (by simp)

theorem colGet_zip_some (g : ℚ → ℚ → Option ℚ) (l1 l2 : List (Option ℚ))
    (i : ℕ) (v : ℚ)
    (h : colGet (List.zipWith (obind2 g) l1 l2) i = some v) :
    ∃ a b, colGet l1 i = some a ∧ colGet l2 i = some b ∧ g a b = some v := by
  simp only [colGet, List.getD_eq_getElem?_getD] at h ⊢
  rcases hz : (List.zipWith (obind2 g) l1 l2)[i]? with _ | w
  · rw [hz] at h; simp at h
  · rw [hz] at h
    simp only [Option.getD_some] at h
    subst h
    obtain ⟨a, b, h1, h2, hab⟩ := List.getElem?_zipWith_eq_some.mp hz
    cases a with
    | none => simp [obind2] at hab
    | some x =>
      cases b with
      | none => simp [obind2] at hab
      | some y => exact ⟨x, y, by rw [h1]; rfl, by rw [h2]; rfl, hab⟩

theorem colGet_rolling (w : ℕ) (l : List (Option ℚ)) (i : ℕ) (a : ℚ)
    (h : colGet (rollingCol w l) i = some a) :
    i < l.length ∧ rollingMeanAt w l i = some a := by
  by_cases hi : i < l.length
  · refine ⟨hi, ?_⟩
    have hg : (rollingCol w l)[i]? = some (rollingMeanAt w l i) := by
      simp [rollingCol, List.getElem?_range hi]
    simpa [colGet, List.getD_eq_getElem?_getD, hg] using h
  · exfalso
    have hg : (rollingCol w l)[i]? = none := by
      apply List.getElem?_eq_none
      simp only [rollingCol, List.length_map, List.length_range]
      omega
    simp [colGet, List.getD_eq_getElem?_getD, hg] at h

theorem featRowOpt_sma20 (s : Series) (i : ℕ) (f : Feat)
    (h : featRowOpt s i = some f) :
    ∃ v, colGet (smaDevCol 20 s) i = some v := by
  unfold featRowOpt at h
  rcases hm : macdCols s with ⟨m, sg, hh⟩
  rw [hm] at h
  cases c1 : colGet (ret1Col s) i <;> rw [c1] at h
  · exact absurd h (by simp)
  cases c2 : colGet (smaDevCol 5 s) i <;> rw [c2] at h
  · exact absurd h (by simp)
  cases c3 : colGet (smaDevCol 20 s) i <;> rw [c3] at h
  · exact absurd h (by simp)
  · rename_i v
    exact ⟨v, rfl⟩

theorem featRowOpt_some_count (s : Series) (i : ℕ) (f : Feat)
    (h : featRowOpt s i = some f) : 20 ≤ (s.filterMap id).length := by
  obtain ⟨v, hv⟩ := featRowOpt_sma20 s i f h
  unfold smaDevCol at hv
  obtain ⟨a, b, ha, hb, hg⟩ := colGet_zip_some _ _ _ _ _ hv
  obtain ⟨hi, hroll⟩ := colGet_rolling 20 s i a ha
  exact rollingMeanAt_some_count 20 s i hi a hroll

theorem alignedData_empty_of_few (s : Series)
    (h : (s.filterMap id).length < 20) : alignedData s = [] := by
  unfold alignedData
  rw [List.filterMap_eq_nil_iff]
  intro i _
  cases hf : featRowOpt s i with
  | none => rfl
  | some f => exact absurd (featRowOpt_some_count s i f hf) (by omega)

theorem predict_core_err_of_few (hvSK : Bool)
    (ridge : List (Feat × ℚ) → List Feat → ℚ) (s : Series) (now : ℤ)
    (h : (s.filterMap id).length < 20) :
    ∃ e, predict_core hvSK ridge s now = .error e := by
  cases hs : s.isEmpty with
  | true =>
    refine ⟨"no price", ?_⟩
    unfold predict_core
    rw [if_pos hs]
  | false =>
    refine ⟨"not enough data", ?_⟩
    apply predict_core_err_small _ _ _ _ hs
    rw [alignedData_empty_of_few s h]
    norm_num

theorem predict_core_ok_count (hvSK : Bool)
    (ridge : List (Feat × ℚ) → List Feat → ℚ) (s : Series) (now : ℤ)
    (r : PredResult) (h : predict_core hvSK ridge s now = .ok r) :
    20 ≤ (s.filterMap id).length := by
  by_contra hc
  obtain ⟨e, he⟩ := predict_core_err_of_few hvSK ridge s now (by omega)
  rw [he] at h
  exact absurd h (by simp)

theorem predict_fallback_err_of_few (s : Series) (now : ℤ)
    (h : (s.filterMap id).length < 20) :
    ∃ e, predict_fallback s now = .error e := by
  cases hs : s.isEmpty with
  | true =>
    refine ⟨"fallback: no price data", ?_⟩
    unfold predict_fallback
    rw [if_pos hs]
  | false =>
    refine ⟨"fallback: not enough data", ?_⟩
    unfold predict_fallback
    rw [if_neg (by simp [hs]), if_pos h]

theorem predict_fallback_ok_of_count (s : Series) (now : ℤ)
    (h : 20 ≤ (s.filterMap id).length) :
    ∃ r, predict_fallback s now = .ok r := by
  have hs : s.isEmpty = false := by
    cases s with
    | nil => simp at h
    | cons a t => rfl
  unfold predict_fallback
  rw [if_neg (by simp [hs]), if_neg (by omega)]
  exact ⟨_, rfl⟩

theorem predict_return_ok_of_count (ttl : ℚ) (avail hvSK : Bool)
    (ridge : List (Feat × ℚ) → List Feat → ℚ) (live : Option ℚ) (s : Series)
    (now : ℚ) (h : 20 ≤ (s.filterMap id).length) :
    ∃ r, predict_return ttl avail hvSK ridge none live s now = .ok r := by
  obtain ⟨rf, hrf⟩ := predict_fallback_ok_of_count s ⌊now⌋ h
  unfold predict_return
  cases avail with
  | false => exact ⟨attachLive live rf, by simp [hrf, Except.map]⟩
  | true =>
    cases hpo : predict_one ttl (fun t => predict_core hvSK ridge s ⌊t⌋) none false now with
    | error e => exact ⟨attachLive live rf, by simp [hpo, hrf, Except.map]⟩
    | ok rc =>
      obtain ⟨r0, c0⟩ := rc
      exact ⟨attachLive live r0, by simp [hpo]⟩

/-- A 15-close price series (all valid). -/
def series15 : Series :=
  [some 100, some 101, some 99, some 102, some 98, some 103, some 100, some 104,
   some 97, some 105, some 101, some 106, some 96, some 107, some 102]

/-- C3: with a fresh (empty) cache, `predict` raises exactly when fewer than 20
valid closing prices are available — the regression path can only succeed with
at least 20 valid closes (its 20-day rolling window needs them) and the
statistical fallback refuses below 20 — and in particular a series of 15 valid
closes makes the prediction raise `InsufficientHistory`
(`"fallback: not enough data"`). -/
theorem predict_return_insufficient_history_iff :
    (∀ (ttl : ℚ) (avail hvSK : Bool) (ridge : List (Feat × ℚ) → List Feat → ℚ)
       (live : Option ℚ) (s : Series) (now : ℚ),
       (∃ e, predict_return ttl avail hvSK ridge none live s now = .error e) ↔
         (s.filterMap id).length < 20) ∧
    predict_return 900 true true (fun _ _ => 0) none none series15 0 =
      .error "fallback: not enough data" := by
  constructor
  · intro ttl avail hvSK ridge live s now
    constructor
    · rintro ⟨e, he⟩
      by_contra hc
      push_neg at hc
      obtain ⟨r, hr⟩ := predict_return_ok_of_count ttl avail hvSK ridge live s now hc
      rw [hr] at he
      exact absurd he (by simp)
    · intro h20
      obtain ⟨ef, hef⟩ := predict_fallback_err_of_few s ⌊now⌋ h20
      unfold predict_return
      cases avail with
      | false => exact ⟨ef, by simp [hef, Except.map]⟩
      | true =>
        obtain ⟨ec, hec⟩ := predict_core_err_of_few hvSK ridge s ⌊now⌋ h20
        have hpo : predict_one ttl (fun t => predict_core hvSK ridge s ⌊t⌋)
            none false now = .error ec := by
          rw [predict_one_miss]
          simp [hec]
        exact ⟨ef, by simp [hpo, hef, Except.map]⟩
  · have hcore : predict_core true (fun _ _ => 0) series15 0 = .error "not enough data" :=
      predict_core_err_small _ _ _ _ rfl
        (lt_of_le_of_lt (alignedData_length_le _) (by decide))
    have hfb : predict_fallback series15 0 = .error "fallback: not enough data" := by
      unfold predict_fallback
      rw [if_neg (by decide), if_pos (by decide)]
    have hpo : predict_one 900 (fun t => predict_core true (fun _ _ => 0) series15 ⌊t⌋)
        none false 0 = .error "not enough data" := by
      rw [predict_one_miss]
      simp [Int.floor_zero, hcore]
    unfold predict_return
    simp [hpo, Int.floor_zero, hfb, Except.map]

/-- C4 (amended): every `PredictionResult` produced by the predictor or by the
agent fallback is built as `mkResult`: there are unrounded quantities `lc`
(last close) and `pr` (predicted return) with `last_close = round(lc, 4)`,
`pred_ret_1d = round(pr, 6)`, `pred_close_1d = round(lc * (1 + pr), 4)` and
`signal` the ±0.01 threshold function of the *unrounded* `pr` — the invariant
`pred_close_1d = last_close * (1 + pred_ret_1d)` holds exactly before
rounding, not between the independently rounded fields. -/
theorem prediction_result_shape (s : Series) (t : ℤ) (r : PredResult)
    (h : predict_fallback s t = .ok r ∨
         ∃ (hvSK : Bool) (ridge : List (Feat × ℚ) → List Feat → ℚ),
           predict_core hvSK ridge s t = .ok r) :
    ∃ lc pr, r.last_close = roundTo 4 lc ∧ r.pred_ret_1d = roundTo 6 pr ∧
      r.pred_close_1d = roundTo 4 (lc * (1 + pr)) ∧ r.signal = signalOf pr := by
  rcases h with h | ⟨hvSK, ridge, h⟩
  · unfold predict_fallback at h
    split at h
    · exact absurd h (by simp)
    · split at h
      · exact absurd h (by simp)
      · simp only [Except.ok.injEq] at h
        exact ⟨_, _, by rw [← h]; rfl, by rw [← h]; rfl, by rw [← h]; rfl,
          by rw [← h]; rfl⟩
  · unfold predict_core at h
    split at h
    · exact absurd h (by simp)
    · split at h
      · exact absurd h (by simp)
      · simp only [Except.ok.injEq] at h
        refine ⟨lastVal s, _, by rw [← h]; rfl, by rw [← h]; rfl,
          by rw [← h]; rfl, by rw [← h]; rfl⟩

def bV : ℚ := 123456700 / 1000047
def cV : ℚ := 1234567 / 10000

/-- Twenty-one valid closes: eleven at `cV/1.000047`, then ten at `cV = 123.4567`, so
the last ten daily returns are `[0.000047, 0, …, 0]` with mean `0.0000047`. -/
def series21 : Series :=
  [some bV, some bV, some bV, some bV, some bV, some bV, some bV, some bV,
   some bV, some bV, some bV, some cV, some cV, some cV, some cV, some cV,
   some cV, some cV, some cV, some cV, some cV]

def r21 : PredResult :=
  { last_close := 1234567 / 10000, pred_ret_1d := 1 / 200000,
    pred_close_1d := 1234573 / 10000, signal := "HOLD", ts := 0,
    live_price := none }

theorem prediction_result_shape_witness :
    ∃ lc pr, r21.last_close = roundTo 4 lc ∧ r21.pred_ret_1d = roundTo 6 pr ∧
      r21.pred_close_1d = roundTo 4 (lc * (1 + pr)) ∧ r21.signal = signalOf pr :=
  prediction_result_shape series21 0 r21
    (Or.inl (by
      norm_num [predict_fallback, series21, bV, cV, mkResult, roundTo, signalOf,
        round_eq, r21, List.filterMap, List.zipWith, List.getLastD]))

/-- C4 counterexample: on `series21` the agent fallback returns a result whose
fields violate `pred_close_1d = last_close * (1 + pred_ret_1d)` — the forecast
close is rounded from the unrounded product (`123.45728024649 → 123.4573`),
while the stored `last_close * (1 + pred_ret_1d)` equals `123.4573172835`. -/
theorem prediction_result_rounding_counterexample :
    predict_fallback series21 0 = .ok r21 ∧
    r21.pred_close_1d ≠ r21.last_close * (1 + r21.pred_ret_1d) := by
  constructor
  · norm_num [predict_fallback, series21, bV, cV, mkResult, roundTo, signalOf,
      round_eq, r21, List.filterMap, List.zipWith, List.getLastD]
  · norm_num [r21]

/-! ## news_agent.py — fetch plumbing, dedup, sort

Network fetchers (`feedparser`, yfinance `.news`) are oracles returning either
a parsed item list or a failure.  `urlparse`/`parse_qs` are re-implemented on
characters; percent-decoding and `+`-decoding are not modelled (no link used
in a theorem contains `%`, `+` or `;`).  The `isinstance` timestamp coercion
is pre-applied: timestamps arrive as `Option Int`. -/

structure NewsItem where
  title : Option String
  link : Option String
  pubTs : Option Int
deriving DecidableEq

/-- Split a character list on a separator character (`str.split(sep)`). -/
def splitOnCh (c : Char) (l : List Char) : List (List Char) :=
  match l with
  | [] => [[]]
  | x :: xs =>
    let r := splitOnCh c xs
    if x = c then [] :: r
    else
      match r with
      | [] => [[x]]
      | h :: t => (x :: h) :: t

/-- Models `urlparse(link).query`: everything after the first `?` of the
pre-fragment part. -/
def urlQueryStr (s : String) : String :=
  let pre := (splitOnCh '#' s.data).headD []
  match splitOnCh '?' pre with
  | [] => ""
  | [_] => ""
  | _ :: rest => ⟨List.intercalate ['?'] rest⟩

/-- Models `parse_qs(query).get(key)[0]`: first non-blank value bound to `key`
(blank values are dropped by `parse_qs`; fields without `=` are skipped). -/
def qsFirst (key : String) (q : String) : Option String :=
  ((splitOnCh '&' q.data).filterMap fun f =>
    if isPreOf (key.data ++ ['=']) f then
      let v := f.drop (key.data.length + 1)
      if v.isEmpty then none else some (⟨v⟩ : String)
    else none).head?

/-- Models `_unwrap_gnews_link`. -/
def unwrap_gnews_link : Option String → Option String
  | none => none
  | some l =>
    if l = "" then some l
    else if !containsSub l "news.google.com" then some l
    else
      let q := urlQueryStr l
      match qsFirst "url" q with
      | some u => some u
      | none =>
        match qsFirst "u" q with
        | some u => some u
        | none => some l

/-- One iteration of the clean/dedup loop: strip the title, canonicalize the
link, discard falsy ones, and compute the identity key
`(title.lower(), link)`. -/
def cleanItem (it : NewsItem) : Option (NewsItem × (String × String)) :=
  match unwrap_gnews_link it.link with
  | none => none
  | some ls =>
    if pyStrip (it.title.getD "") = "" ∨ ls = "" then none
    else some (⟨some (pyStrip (it.title.getD "")), some ls, it.pubTs⟩,
      (pyLower (pyStrip (it.title.getD "")), ls))

def dedupGo : List (String × String) → List NewsItem → List NewsItem
  | _, [] => []
  | seen, it :: rest =>
    match cleanItem it with
    | none => dedupGo seen rest
    | some (c, key) =>
      if key ∈ seen then dedupGo seen rest
      else c :: dedupGo (key :: seen) rest

/-- The clean/dedup pass of `_news_enriched` (lines 107–120). -/
def dedupNews (items : List NewsItem) : List NewsItem := dedupGo [] items

/-- Models `x.get("providerPublishTime") or 0`. -/
def tsKey (it : NewsItem) : Int :=
  match it.pubTs with
  | none => 0
  | some t => t

/-- Models `clean.sort(key=lambda x: x.get("providerPublishTime") or 0,
reverse=True)` — a stable descending sort. -/
def newsDescLe (a b : NewsItem) : Bool := tsKey b ≤ tsKey a

/-- Clean, dedup, sort newest-first, truncate to `k`
(`_news_enriched` lines 107–122). -/
def news_enriched_clean (items : List NewsItem) (k : ℕ) : List NewsItem :=
  ((dedupNews items).mergeSort newsDescLe).take k

/-- The query-escalation loop: accumulate fetched items per query, skipping
failed fetches, stopping once `k` items are collected. -/
def gatherQueries (fetch : String → Except Unit (List NewsItem)) (k : ℕ) :
    List String → List NewsItem → List NewsItem
  | [], acc => acc
  | q :: qs, acc =>
    match fetch q with
    | .error _ => gatherQueries fetch k qs acc
    | .ok l =>
      let acc2 := acc ++ l
      if k ≤ acc2.length then acc2 else gatherQueries fetch k qs acc2

def strFalsy : Option String → Bool
  | none => true
  | some s => s = ""

/-- Models `_news_enriched`: company-name query escalation (the query list itself is
an input; its construction by `_make_company_queries` is not under study) or a
bare-symbol fetch, then the yfinance ticker feed (unwrapped links, truthy
title/link required), then clean/dedup/sort/truncate. -/
def news_enriched (fetch : String → Except Unit (List NewsItem))
    (yfNews : Except Unit (List NewsItem)) (queries : Option (List String))
    (symbol : String) (k : ℕ) : List NewsItem :=
  let base :=
    match queries with
    | some qs => gatherQueries fetch k qs []
    | none =>
      match fetch symbol with
      | .ok l => l
      | .error _ => []
  let withYf :=
    match yfNews with
    | .ok arr =>
      base ++ (arr.take (max 10 k)).filterMap fun n =>
        let l := unwrap_gnews_link n.link
        if strFalsy n.title || strFalsy l then none
        else some ⟨n.title, l, n.pubTs⟩
    | .error _ => base
  news_enriched_clean withYf k

/-! ### Deduplication: discard guarantee and (conditional) idempotence -/

theorem dropWhile_self (p : Char → Bool) (l : List Char) :
    (l.dropWhile p).dropWhile p = l.dropWhile p := by
  induction l with
  | nil => rfl
  | cons a t ih =>
    by_cases h : p a
    · rw [List.dropWhile_cons]
      simp only [h, if_true]
      exact ih
    · rw [List.dropWhile_cons]
      simp only [h, if_false, Bool.false_eq_true]
      rw [List.dropWhile_cons]
      simp [h]

theorem dropWhile_of_isPre (p : Char → Bool) (b l : List Char)
    (hpre : b <+: l) (hl : l.dropWhile p = l) : b.dropWhile p = b := by
  cases b with
  | nil => rfl
  | cons c t =>
    obtain ⟨rest, hrest⟩ := hpre
    subst hrest
    simp only [List.cons_append] at hl
    have hc : p c = false := by
      by_contra hcc
      have hc' : p c = true := by revert hcc; cases p c <;> simp
      rw [List.dropWhile_cons_of_pos hc'] at hl
      have hlen := congrArg List.length hl
      have hle := (List.dropWhile_suffix (l := t ++ rest) p).sublist.length_le
      simp only [List.length_cons] at hlen
      omega
    rw [List.dropWhile_cons, hc]
    simp

theorem pyStrip_idem (s : String) : pyStrip (pyStrip s) = pyStrip s := by
  unfold pyStrip
  have hF : (s.data.dropWhile isWs).dropWhile isWs = s.data.dropWhile isWs :=
    dropWhile_self isWs s.data
  set a := s.data.dropWhile isWs with ha
  set b := ((a.reverse.dropWhile isWs).reverse : List Char) with hb
  have hpre : b <+: a := by
    have h1 : a.reverse.dropWhile isWs <:+ a.reverse := List.dropWhile_suffix isWs
    obtain ⟨t, ht⟩ := h1
    refine ⟨t.reverse, ?_⟩
    have h3 := congrArg List.reverse ht
    simp only [List.reverse_append, List.reverse_reverse] at h3
    rw [hb]
    exact h3
  have hFb : b.dropWhile isWs = b := dropWhile_of_isPre isWs b a hpre hF
  rw [hFb]
  congr 1
  calc (List.dropWhile isWs b.reverse).reverse
      = (List.dropWhile isWs (List.dropWhile isWs a.reverse)).reverse := by
        rw [hb, List.reverse_reverse]
    _ = (List.dropWhile isWs a.reverse).reverse := by rw [dropWhile_self]
    _ = b := hb.symm

theorem cleanItem_some (it : NewsItem) (c : NewsItem) (key : String × String)
    (h : cleanItem it = some (c, key)) :
    ∃ t ls, t = pyStrip (it.title.getD "") ∧
      unwrap_gnews_link it.link = some ls ∧ ¬(t = "" ∨ ls = "") ∧
      c = ⟨some t, some ls, it.pubTs⟩ ∧ key = (pyLower t, ls) := by
  unfold cleanItem at h
  split at h
  · exact absurd h (by simp)
  · rename_i ls hu
    split at h
    · exact absurd h (by simp)
    · rename_i hcond
      simp only [Option.some.injEq, Prod.mk.injEq] at h
      exact ⟨_, ls, rfl, hu, hcond, h.1.symm, h.2.symm⟩

theorem cleanItem_fixed (it : NewsItem) (c : NewsItem) (key : String × String)
    (h : cleanItem it = some (c, key))
    (hst : unwrap_gnews_link (unwrap_gnews_link it.link) = unwrap_gnews_link it.link) :
    cleanItem c = some (c, key) := by
  obtain ⟨t, ls, ht, hu, hcond, hc, hk⟩ := cleanItem_some it c key h
  rw [hu] at hst
  have hts : pyStrip t = t := by rw [ht, pyStrip_idem]
  subst hc
  subst hk
  unfold cleanItem
  simp only [Option.getD_some, hts, hst]
  rw [if_neg hcond]

theorem dedupGo_cons_none (seen : List (String × String)) (it : NewsItem)
    (rest : List NewsItem) (h : cleanItem it = none) :
    dedupGo seen (it :: rest) = dedupGo seen rest := by
  conv_lhs => unfold dedupGo
  rw [h]

theorem dedupGo_cons_mem (seen : List (String × String)) (it : NewsItem)
    (rest : List NewsItem) (c : NewsItem) (key : String × String)
    (h : cleanItem it = some (c, key)) (hk : key ∈ seen) :
    dedupGo seen (it :: rest) = dedupGo seen rest := by
  conv_lhs => unfold dedupGo
  rw [h]
  simp only [if_pos hk]

theorem dedupGo_cons_new (seen : List (String × String)) (it : NewsItem)
    (rest : List NewsItem) (c : NewsItem) (key : String × String)
    (h : cleanItem it = some (c, key)) (hk : key ∉ seen) :
    dedupGo seen (it :: rest) = c :: dedupGo (key :: seen) rest := by
  conv_lhs => unfold dedupGo
  rw [h]
  simp only [if_neg hk]

theorem dedupGo_idem (items : List NewsItem)
    (H : ∀ it ∈ items,
      unwrap_gnews_link (unwrap_gnews_link it.link) = unwrap_gnews_link it.link) :
    ∀ seen, dedupGo seen (dedupGo seen items) = dedupGo seen items := by
  induction items with
  | nil => intro seen; rfl
  | cons it rest ih =>
    intro seen
    have Hit := H it (by simp)
    have Hrest : ∀ x ∈ rest,
        unwrap_gnews_link (unwrap_gnews_link x.link) = unwrap_gnews_link x.link :=
      fun x hx => H x (by simp [hx])
    cases hci : cleanItem it with
    | none =>
      rw [dedupGo_cons_none seen it rest hci]
      exact ih Hrest seen
    | some pr =>
      obtain ⟨c, key⟩ := pr
      by_cases hk : key ∈ seen
      · rw [dedupGo_cons_mem seen it rest c key hci hk]
        exact ih Hrest seen
      · rw [dedupGo_cons_new seen it rest c key hci hk]
        rw [dedupGo_cons_new seen c (dedupGo (key :: seen) rest) c key
          (cleanItem_fixed it c key hci Hit) hk]
        rw [ih Hrest (key :: seen)]

theorem dedupGo_shape (items : List NewsItem) :
    ∀ (seen : List (String × String)) (c : NewsItem), c ∈ dedupGo seen items →
      ∃ t ls ts, c = ⟨some t, some ls, ts⟩ ∧ t ≠ "" ∧ ls ≠ "" := by
  induction items with
  | nil => intro seen c hc; exact absurd hc (by simp [dedupGo])
  | cons it rest ih =>
    intro seen c hc
    cases hci : cleanItem it with
    | none =>
      rw [dedupGo_cons_none seen it rest hci] at hc
      exact ih seen c hc
    | some pr =>
      obtain ⟨c0, key⟩ := pr
      by_cases hk : key ∈ seen
      · rw [dedupGo_cons_mem seen it rest c0 key hci hk] at hc
        exact ih seen c hc
      · rw [dedupGo_cons_new seen it rest c0 key hci hk] at hc
        rcases List.mem_cons.mp hc with rfl | hc'
        · obtain ⟨t, ls, _, _, hcond, hc0, _⟩ := cleanItem_some it c key hci
          push_neg at hcond
          exact ⟨t, ls, it.pubTs, hc0, hcond.1, hcond.2⟩
        · exact ih (key :: seen) c hc'

def caseItem1 : NewsItem := ⟨some "Firm Beats Estimates", some "https://a.com/x", none⟩
def caseItem2 : NewsItem := ⟨some "firm beats estimates", some "https://a.com/x", none⟩

/-- C6 (amended): the clean/dedup pass discards items lacking a non-empty
(stripped) title or a resolvable link, collapses case-differing titles with an
identical canonical link to the first occurrence, and is idempotent **provided
every item's canonicalized link is itself stable under canonicalization**
(true of every link that is not a `news.google.com` redirect); a doubly
wrapped redirect violates idempotence because each pass unwraps one layer. -/
theorem dedup_discard_and_idempotent (X : List NewsItem)
    (H : ∀ it ∈ X,
      unwrap_gnews_link (unwrap_gnews_link it.link) = unwrap_gnews_link it.link) :
    dedupNews (dedupNews X) = dedupNews X ∧
    (∀ c ∈ dedupNews X, ∃ t ls ts, c = ⟨some t, some ls, ts⟩ ∧ t ≠ "" ∧ ls ≠ "") ∧
    dedupNews [caseItem1, caseItem2] =
      [⟨some "Firm Beats Estimates", some "https://a.com/x", none⟩] := by
  refine ⟨dedupGo_idem X H [], fun c hc => dedupGo_shape X [] c hc, ?_⟩
  decide

theorem dedup_discard_and_idempotent_witness :
    dedupNews (dedupNews [caseItem1, caseItem2]) = dedupNews [caseItem1, caseItem2] :=
  (dedup_discard_and_idempotent [caseItem1, caseItem2] (by decide)).1

/-- A Google-News link whose unwrapped destination is itself a wrapped
Google-News link. -/
def wrappedItem : NewsItem :=
  ⟨some "Some Headline",
   some "https://news.google.com/rss?url=https://news.google.com/articles?url=https://real.example/x",
   none⟩

/-- C6 counterexample: deduplication is *not* idempotent on every input — on a
doubly wrapped `news.google.com` link the first pass stores the once-unwrapped
link and the second pass unwraps it again, producing a different list. -/
theorem dedup_not_idempotent :
    dedupNews (dedupNews [wrappedItem]) ≠ dedupNews [wrappedItem] := by decide

/-! ## news_agent.py — sentiment, impact, keywords, aggregation

`math.tanh`/`math.exp` are modelled with `Real.tanh`/`Real.exp`; lexicon
weights are exact rationals.  `re.search` of the impact patterns is an oracle
argument `rmatch pattern title` (the pattern strings are kept as data);
unicode `\w`/`isdigit` are modelled as ASCII alphanumerics plus the Hangul
syllable block. -/

def isKo (language : String) : Bool := isPreOf "ko".data (pyLower language).data

def POS_TERMS_EN : List (String × ℚ) :=
  [("beat", 1), ("beats", 1), ("surge", 1), ("surges", 1), ("jump", 9/10),
   ("jumps", 9/10), ("record", 4/5), ("upgrade", 4/5), ("raises", 7/10),
   ("raise", 7/10), ("strong", 3/5), ("expand", 1/2), ("expands", 1/2),
   ("approval", 1), ("approved", 1), ("partnership", 3/5), ("wins", 4/5),
   ("win", 4/5), ("profit", 3/5), ("growth", 3/5), ("upbeat", 3/5)]

def NEG_TERMS_EN : List (String × ℚ) :=
  [("miss", -1), ("misses", -1), ("plunge", -1), ("plunges", -1),
   ("drop", -(9/10)), ("drops", -(9/10)), ("downgrade", -(4/5)),
   ("cuts", -(4/5)), ("cut", -(4/5)), ("layoff", -(9/10)),
   ("layoffs", -(9/10)), ("lawsuit", -(9/10)), ("recall", -(9/10)),
   ("investigation", -(4/5)), ("probe", -(4/5)), ("warning", -(7/10)),
   ("ban", -(7/10)), ("halt", -(7/10)), ("bankruptcy", -1), ("fraud", -1),
   ("scandal", -1)]

def POS_TERMS_KO : List (String × ℚ) :=
  [("호실적", 1), ("급등", 1), ("반등", 9/10), ("상향", 4/5), ("승인", 1),
   ("허가", 1), ("수주", 4/5), ("확대", 3/5), ("성장", 3/5), ("개선", 3/5),
   ("기록", 3/5), ("합의", 1/2), ("제휴", 3/5), ("계약", 7/10)]

def NEG_TERMS_KO : List (String × ℚ) :=
  [("부진", -(9/10)), ("급락", -1), ("하락", -(4/5)), ("하향", -(4/5)),
   ("경고", -(7/10)), ("소송", -(9/10)), ("리콜", -(9/10)), ("감원", -(9/10)),
   ("파산", -1), ("조사", -(4/5)), ("규제", -(7/10)), ("적자", -(9/10)),
   ("미달", -(9/10)), ("철수", -(4/5))]

/-- Models `for k, v in lexicon.items(): if k in t: score += v`. -/
def lexScore (lex : List (String × ℚ)) (t : String) : ℚ :=
  (lex.filterMap fun kv => if containsSub t kv.1 then some kv.2 else none).sum

/-- Models `_score_title_sentiment`: signed keyword sum through `tanh(sum/3)`
(Korean terms are matched against the raw title, English against the lowered
title, as in the source). -/
noncomputable def score_title_sentiment (title language : String) : ℝ :=
  if title = "" then 0
  else if isKo language then
    Real.tanh (((lexScore POS_TERMS_KO title + lexScore NEG_TERMS_KO title : ℚ) : ℝ) / 3)
  else
    Real.tanh (((lexScore POS_TERMS_EN (pyLower title) +
      lexScore NEG_TERMS_EN (pyLower title) : ℚ) : ℝ) / 3)

def IMPACT_TAGS : List (String × String × ℚ) :=
  [("\\b(earnings|results|eps|revenue|guidance|outlook)\\b", "Earnings/Guidance", 1),
   ("\\b(acquisition|acquires|merger|m&a|deal)\\b", "M&A", 1),
   ("\\b(partnership|alliance|collaboration)\\b", "Partnership", 7/10),
   ("\\b(lawsuit|legal|settlement)\\b", "Legal", 4/5),
   ("\\b(recall|ban|regulation|approved|approval)\\b", "Regulatory", 9/10),
   ("\\b(layoff|job cuts|restructuring)\\b", "Workforce", 7/10),
   ("\\b(supply chain|shortage|disruption)\\b", "Supply chain", 7/10)]

def IMPACT_TAGS_KO : List (String × String × ℚ) :=
  [("(실적|가이던스|전망)", "Earnings/Guidance", 1),
   ("(인수|합병|m&a|딜)", "M&A", 1),
   ("(제휴|협력|파트너십)", "Partnership", 7/10),
   ("(소송|법적|합의)", "Legal", 4/5),
   ("(리콜|규제|승인|허가|금지)", "Regulatory", 9/10),
   ("(감원|구조조정)", "Workforce", 7/10),
   ("(공급망|부족|차질)", "Supply chain", 7/10)]

def lexLtChars : List Char → List Char → Bool
  | [], [] => false
  | [], _ :: _ => true
  | _ :: _, [] => false
  | a :: as, b :: bs => if a < b then true else if b < a then false else lexLtChars as bs

def strLtB (a b : String) : Bool := lexLtChars a.data b.data

def insertUniqSorted (x : String) : List String → List String
  | [] => [x]
  | y :: t => if x = y then y :: t else if strLtB x y then x :: y :: t else y :: insertUniqSorted x t

/-- Models `sorted(list(set(tags)))`. -/
def sortedUniq (l : List String) : List String :=
  l.foldl (fun acc x => insertUniqSorted x acc) []

/-- Models `_tag_impacts` (regex search abstracted to `rmatch`). -/
def tag_impacts (rmatch : String → String → Bool) (title language : String) :
    List String :=
  let arr := if isKo language then IMPACT_TAGS_KO else IMPACT_TAGS
  sortedUniq (arr.filterMap fun p => if rmatch p.1 title then some p.2.1 else none)

/-- Models `_impact_weight_for_tags`. -/
def impact_weight_for_tags (tags : List String) (language : String) : ℚ :=
  let arr := if isKo language then IMPACT_TAGS_KO else IMPACT_TAGS
  (tags.map fun t =>
    ((((arr.map fun p => (p.2.1, p.2.2)).find? fun p => p.1 == t).map Prod.snd).getD 0)).sum

def keepChar (c : Char) : Bool :=
  c.isAlphanum || c == '_' || (0xAC00 ≤ c.toNat && c.toNat ≤ 0xD7A3) || c == '-' || isWs c

def pyIsDigitStr (t : String) : Bool := !t.data.isEmpty && t.data.all (·.isDigit)

def stripDashUnderscore (t : String) : String :=
  let p := fun c => c == '-' || c == '_'
  ⟨((t.data.dropWhile p).reverse.dropWhile p).reverse⟩

def STOP_EN : List String :=
  ["the", "a", "an", "and", "or", "for", "of", "to", "in", "on", "with", "at",
   "by", "from", "company", "inc", "corp", "co", "ltd", "plc", "group",
   "shares", "stock", "reports", "earnings", "news", "today", "update"]

def STOP_KO : List String :=
  ["및", "그리고", "또", "더", "관련", "회사", "기업", "주가", "증권", "속보",
   "뉴스", "발표", "오늘", "보고"]

def bumpFreq : List (String × ℕ) → String → List (String × ℕ)
  | [], t => [(t, 1)]
  | (k, n) :: rest, t =>
    if k = t then (k, n + 1) :: rest else (k, n) :: bumpFreq rest t

def freqCount (toks : List String) : List (String × ℕ) :=
  toks.foldl bumpFreq []

/-- Models `sorted(freq.items(), key=lambda x: (-x[1], x[0]))`. -/
def freqLe (a b : String × ℕ) : Bool :=
  (b.2 < a.2) || (a.2 == b.2 && (strLtB a.1 b.1 || a.1 == b.1))

def topTokens (toks : List String) (n : ℕ) : List String :=
  (((freqCount toks).mergeSort freqLe).take n).map Prod.fst

/-- Models `_extract_keywords`. -/
def extract_keywords (title language : String) (maxK : ℕ) : List String :=
  if title = "" then []
  else
    let cleaned := (pyLower title).data.map fun c =>
      if keepChar c && !isWs c then c else ' '
    let toks0 := ((splitOnCh ' ' cleaned).filter (· ≠ [])).map
      fun w => (⟨w⟩ : String)
    let toks1 := (toks0.filter fun t =>
      decide (2 ≤ t.data.length) && decide (t.data.length ≤ 20) &&
        !pyIsDigitStr t).map stripDashUnderscore
    let toks := if isKo language then toks1.filter (fun t => !(STOP_KO.contains t))
                else toks1.filter (fun t => !(STOP_EN.contains t))
    topTokens toks maxK

/-- Decay weight `exp(-age_days/7)`; a missing/zero timestamp yields age 0,
hence full weight. -/
noncomputable def itemWeight (now : ℝ) (ts : Int) : ℝ :=
  Real.exp (-(if ts ≠ 0 then max 0 ((now - (ts : ℝ)) / 86400) else 0) / 7)

noncomputable def roundTo3R (x : ℝ) : ℝ := ((round (x * 1000) : ℤ) : ℝ) / 1000

structure ItemRow where
  title : String
  link : Option String
  ts : Int
  sentiment : ℝ
  label : String
  impact_tags : List String
  keywords : List String

structure Overall where
  score : ℝ
  label : String
  pos : ℕ
  neg : ℕ
  neu : ℕ
  impact_score : ℝ
  top_keywords : List String

structure NewsAnalysis where
  overall : Overall
  items : List ItemRow

structure AnaState where
  pos : ℕ
  neg : ℕ
  neu : ℕ
  wSum : ℝ
  wScore : ℝ
  wImpact : ℝ
  allKw : List String
  rows : List ItemRow

/-- One iteration of the `analyze_news` accumulation loop. -/
noncomputable def anaStep (rmatch : String → String → Bool) (language : String)
    (now : ℝ) (st : AnaState) (it : NewsItem) : AnaState :=
  let title := pyStrip (it.title.getD "")
  let ts := tsKey it
  let s := score_title_sentiment title language
  let lbl := if (15 / 100 : ℝ) < s then "pos"
             else if s < -(15 / 100 : ℝ) then "neg" else "neu"
  let tags := tag_impacts rmatch title language
  let impact := impact_weight_for_tags tags language
  let w := itemWeight now ts
  let kws := extract_keywords title language 5
  { pos := st.pos + (if lbl = "pos" then 1 else 0),
    neg := st.neg + (if lbl = "neg" then 1 else 0),
    neu := st.neu + (if lbl = "neu" then 1 else 0),
    wSum := st.wSum + w,
    wScore := st.wScore + w * s,
    wImpact := st.wImpact + w * (s + (1 / 5 : ℝ) * (impact : ℝ)),
    allKw := st.allKw ++ kws,
    rows := st.rows ++ [⟨title, it.link, ts, roundTo3R s, lbl, tags, kws⟩] }

/-- Models `analyze_news`: empty input returns the neutral aggregate; otherwise a
decay-weighted average of per-item sentiments (and impact-adjusted
sentiments), rounded to 3 decimals, with counts and global top keywords. -/
noncomputable def analyze_news (rmatch : String → String → Bool)
    (language : String) (now : ℝ) (items : List NewsItem) : NewsAnalysis :=
  match items with
  | [] => ⟨⟨0, "neutral", 0, 0, 0, 0, []⟩, []⟩
  | _ :: _ =>
    let st := items.foldl (anaStep rmatch language now) ⟨0, 0, 0, 0, 0, 0, [], []⟩
    let avg := if st.wSum ≠ 0 then st.wScore / st.wSum else 0
    let impactScore := if st.wSum ≠ 0 then st.wImpact / st.wSum else 0
    let label := if (15 / 100 : ℝ) < avg then "bullish"
                 else if avg < -(15 / 100 : ℝ) then "bearish" else "mixed"
    ⟨⟨roundTo3R avg, label, st.pos, st.neg, st.neu, roundTo3R impactScore,
      topTokens st.allKw 10⟩, st.rows⟩

/-! ### Bounds for the aggregate sentiment -/

theorem abs_tanh_le_one (x : ℝ) : |Real.tanh x| ≤ 1 := by
  rw [Real.tanh_eq_sinh_div_cosh, abs_div, abs_of_pos (Real.cosh_pos x),
    div_le_one (Real.cosh_pos x)]
  nlinarith [Real.cosh_sq x, Real.cosh_pos x, abs_nonneg (Real.sinh x),
    sq_abs (Real.sinh x)]

theorem abs_score_title_le_one (title language : String) :
    |score_title_sentiment title language| ≤ 1 := by
  unfold score_title_sentiment
  split
  · simp
  · split
    · exact abs_tanh_le_one _
    · exact abs_tanh_le_one _

theorem itemWeight_pos (now : ℝ) (ts : Int) : 0 < itemWeight now ts :=
  Real.exp_pos _

theorem itemWeight_le_one (now : ℝ) (ts : Int) : itemWeight now ts ≤ 1 := by
  unfold itemWeight
  rw [Real.exp_le_one_iff]
  split
  · have : (0 : ℝ) ≤ max 0 ((now - (ts : ℝ)) / 86400) := le_max_left 0 _
    linarith
  · norm_num

theorem ana_fold_bound (rmatch : String → String → Bool) (language : String)
    (now : ℝ) :
    ∀ (items : List NewsItem) (st : AnaState), 0 ≤ st.wSum →
      |st.wScore| ≤ st.wSum →
      0 ≤ (items.foldl (anaStep rmatch language now) st).wSum ∧
      |(items.foldl (anaStep rmatch language now) st).wScore| ≤
        (items.foldl (anaStep rmatch language now) st).wSum := by
  intro items
  induction items with
  | nil => intro st h0 h1; exact ⟨h0, h1⟩
  | cons it rest ih =>
    intro st h0 h1
    simp only [List.foldl_cons]
    apply ih
    · have hw := itemWeight_pos now (tsKey it)
      show 0 ≤ st.wSum + itemWeight now (tsKey it)
      linarith
    · show |st.wScore + itemWeight now (tsKey it) *
        score_title_sentiment (pyStrip (it.title.getD "")) language| ≤
        st.wSum + itemWeight now (tsKey it)
      have hw := itemWeight_pos now (tsKey it)
      have hs := abs_score_title_le_one (pyStrip (it.title.getD "")) language
      calc |st.wScore + itemWeight now (tsKey it) *
          score_title_sentiment (pyStrip (it.title.getD "")) language|
          ≤ |st.wScore| + |itemWeight now (tsKey it) *
            score_title_sentiment (pyStrip (it.title.getD "")) language| :=
            abs_add _ _
        _ ≤ st.wSum + itemWeight now (tsKey it) := by
            rw [abs_mul, abs_of_pos hw]
            have h2 : itemWeight now (tsKey it) *
                |score_title_sentiment (pyStrip (it.title.getD "")) language| ≤
                itemWeight now (tsKey it) * 1 := by
              apply mul_le_mul_of_nonneg_left hs (le_of_lt hw)
            linarith

theorem abs_roundTo3R_le_one (x : ℝ) (h : |x| ≤ 1) : |roundTo3R x| ≤ 1 := by
  unfold roundTo3R
  have h1 : |x * 1000| ≤ 1000 := by
    rw [abs_mul]
    have : |(1000 : ℝ)| = 1000 := by norm_num
    rw [this]
    nlinarith
  have h2 : |x * 1000 - round (x * 1000)| ≤ 1 / 2 := by
    have := abs_sub_round (x * 1000)
    simpa using this
  have h3 : |((round (x * 1000) : ℤ) : ℝ)| ≤ 1000 + 1 / 2 := by
    have := abs_sub_abs_le_abs_sub ((round (x * 1000) : ℤ) : ℝ) (x * 1000)
    rw [abs_sub_comm] at h2
    have h4 : |((round (x * 1000) : ℤ) : ℝ)| - |x * 1000| ≤ 1 / 2 :=
      le_trans this h2
    linarith
  have h5 : |round (x * 1000)| ≤ (1000 : ℤ) := by
    by_contra hgt
    push_neg at hgt
    have : (1001 : ℤ) ≤ |round (x * 1000)| := hgt
    have : ((1001 : ℤ) : ℝ) ≤ |((round (x * 1000) : ℤ) : ℝ)| := by
      rw [← Int.cast_abs]
      exact_mod_cast this
    push_cast at this
    linarith
  rw [abs_div]
  have h6 : |(1000 : ℝ)| = 1000 := by norm_num
  rw [h6, div_le_one (by norm_num : (0:ℝ) < 1000)]
  rw [← Int.cast_abs]
  exact_mod_cast h5

/-- C7: the overall aggregate sentiment score of `analyze_news` always lies
in `[-1, 1]`: per-item sentiments are tanh-bounded, decay weights are
positive, the aggregate is their weighted average, and 3-decimal rounding
preserves the bound (the empty input scores exactly 0). -/
theorem analyze_news_score_in_range (rmatch : String → String → Bool)
    (language : String) (now : ℝ) (items : List NewsItem) :
    |(analyze_news rmatch language now items).overall.score| ≤ 1 := by
  cases items with
  | nil => simp [analyze_news]
  | cons it rest =>
    obtain ⟨hS, hB⟩ := ana_fold_bound rmatch language now (it :: rest)
      ⟨0, 0, 0, 0, 0, 0, [], []⟩ le_rfl (by simp)
    have hgoal : (analyze_news rmatch language now (it :: rest)).overall.score =
        roundTo3R (if ((it :: rest).foldl (anaStep rmatch language now)
            ⟨0, 0, 0, 0, 0, 0, [], []⟩).wSum ≠ 0 then
          ((it :: rest).foldl (anaStep rmatch language now)
            ⟨0, 0, 0, 0, 0, 0, [], []⟩).wScore /
          ((it :: rest).foldl (anaStep rmatch language now)
            ⟨0, 0, 0, 0, 0, 0, [], []⟩).wSum
        else 0) := rfl
    rw [hgoal]
    generalize hq : (it :: rest).foldl (anaStep rmatch language now)
      ⟨0, 0, 0, 0, 0, 0, [], []⟩ = stq at hS hB ⊢
    apply abs_roundTo3R_le_one
    by_cases hz : stq.wSum = 0
    · rw [if_neg (not_not_intro hz)]
      norm_num
    · rw [if_pos hz]
      rw [abs_div]
      have hpos : 0 < stq.wSum := lt_of_le_of_ne hS (Ne.symm hz)
      rw [abs_of_pos hpos, div_le_one hpos]
      exact hB

/-! ### Fetch failures only reduce the item set -/

def errToEmpty (fetch : String → Except Unit (List NewsItem)) :
    String → Except Unit (List NewsItem) :=
  fun q =>
    match fetch q with
    | .error _ => .ok []
    | .ok l => .ok l

def errListToEmpty : Except Unit (List NewsItem) → Except Unit (List NewsItem) :=
  fun r =>
    match r with
    | .error _ => .ok []
    | .ok l => .ok l

theorem gather_cons (fetch : String → Except Unit (List NewsItem)) (k : ℕ)
    (q : String) (qs : List String) (acc : List NewsItem) :
    gatherQueries fetch k (q :: qs) acc =
      match fetch q with
      | .error _ => gatherQueries fetch k qs acc
      | .ok l =>
        if k ≤ (acc ++ l).length then acc ++ l
        else gatherQueries fetch k qs (acc ++ l) := by
  conv_lhs => unfold gatherQueries

theorem gather_err_to_empty (fetch : String → Except Unit (List NewsItem))
    (k : ℕ) :
    ∀ (qs : List String) (acc : List NewsItem), acc.length < k →
      gatherQueries (errToEmpty fetch) k qs acc = gatherQueries fetch k qs acc := by
  intro qs
  induction qs with
  | nil => intro acc _; rfl
  | cons q qs ih =>
    intro acc hacc
    rw [gather_cons, gather_cons]
    cases hf : fetch q with
    | error e =>
      have he : errToEmpty fetch q = .ok [] := by
        unfold errToEmpty
        rw [hf]
      rw [he]
      show (if k ≤ (acc ++ ([] : List NewsItem)).length then acc ++ []
            else gatherQueries (errToEmpty fetch) k qs (acc ++ [])) =
          gatherQueries fetch k qs acc
      simp only [List.append_nil]
      rw [if_neg (by omega)]
      exact ih acc hacc
    | ok l =>
      have he : errToEmpty fetch q = .ok l := by
        unfold errToEmpty
        rw [hf]
      rw [he]
      show (if k ≤ (acc ++ l).length then acc ++ l
            else gatherQueries (errToEmpty fetch) k qs (acc ++ l)) =
          (if k ≤ (acc ++ l).length then acc ++ l
            else gatherQueries fetch k qs (acc ++ l))
      by_cases hlen : k ≤ (acc ++ l).length
      · rw [if_pos hlen, if_pos hlen]
      · rw [if_neg hlen, if_neg hlen]
        exact ih (acc ++ l) (by omega)

/-- C9: news analysis is a total function whose failure modes only shrink the
input: a fully empty item set yields the exact neutral aggregate (score 0,
label `neutral`, zero counts, impact 0, no keywords, empty rows), and
replacing any failing fetch source (a query fetch or the yfinance feed) with
an empty success leaves the enriched item list unchanged — fetch/parse
failures only reduce the number of items, never raise. -/
theorem analyze_news_total_and_failures_reduce :
    (∀ (rmatch : String → String → Bool) (language : String) (now : ℝ),
      analyze_news rmatch language now [] = ⟨⟨0, "neutral", 0, 0, 0, 0, []⟩, []⟩) ∧
    (∀ (fetch : String → Except Unit (List NewsItem))
       (yf : Except Unit (List NewsItem)) (queries : Option (List String))
       (symbol : String) (k : ℕ), 0 < k →
       news_enriched (errToEmpty fetch) (errListToEmpty yf) queries symbol k =
         news_enriched fetch yf queries symbol k) := by
  constructor
  · intro rmatch language now
    rfl
  · intro fetch yf queries symbol k hk
    unfold news_enriched
    have hbase :
        (match queries with
          | some qs => gatherQueries (errToEmpty fetch) k qs []
          | none =>
            match errToEmpty fetch symbol with
            | .ok l => l
            | .error _ => []) =
        (match queries with
          | some qs => gatherQueries fetch k qs []
          | none =>
            match fetch symbol with
            | .ok l => l
            | .error _ => []) := by
      cases queries with
      | some qs => exact gather_err_to_empty fetch k qs [] (by simpa using hk)
      | none =>
        cases hf : fetch symbol with
        | error e =>
          have he : errToEmpty fetch symbol = .ok [] := by
            unfold errToEmpty
            rw [hf]
          rw [he]
        | ok l =>
          have he : errToEmpty fetch symbol = .ok l := by
            unfold errToEmpty
            rw [hf]
          rw [he]
    rw [hbase]
    cases yf with
    | error e =>
      show news_enriched_clean (_ ++ _) k = news_enriched_clean _ k
      simp [errListToEmpty]
    | ok arr => rfl

def failFetch : String → Except Unit (List NewsItem) := fun _ => .error ()

theorem analyze_news_total_and_failures_reduce_witness :
    news_enriched (errToEmpty failFetch) (errListToEmpty (.error ()))
        (some ["query one", "query two"]) "SYM" 3 =
      news_enriched failFetch (.error ()) (some ["query one", "query two"]) "SYM" 3 :=
  analyze_news_total_and_failures_reduce.2 failFetch (.error ())
    (some ["query one", "query two"]) "SYM" 3 (by norm_num)

/-! ### The enriched list: truncation, ordering, undated weights -/

/-- C10 (amended): the item list handed to analysis has at most `limit`
entries and is sorted descending by the key `providerPublishTime or 0`;
consequently an undated item (key 0) never precedes an item with a *positive*
timestamp — though it does precede pre-epoch (negative) timestamps, so
"undated sorted last" is not unconditional — while the aggregation stage
gives undated items the maximal decay weight 1. -/
theorem news_enriched_clean_props (items : List NewsItem) (k : ℕ) (now : ℝ) :
    (news_enriched_clean items k).length ≤ k ∧
    List.Pairwise (fun a b => tsKey b ≤ tsKey a) (news_enriched_clean items k) ∧
    List.Pairwise (fun a b => 0 < tsKey b → 0 < tsKey a) (news_enriched_clean items k) ∧
    itemWeight now 0 = 1 ∧ (∀ t : Int, itemWeight now t ≤ 1) := by
  have htrans : ∀ (a b c : NewsItem),
      newsDescLe a b → newsDescLe b c → newsDescLe a c := by
    intro a b c hab hbc
    simp only [newsDescLe, decide_eq_true_eq] at *
    omega
  have htotal : ∀ (a b : NewsItem), newsDescLe a b || newsDescLe b a := by
    intro a b
    simp only [newsDescLe, Bool.or_eq_true, decide_eq_true_eq]
    omega
  have hsorted := List.sorted_mergeSort htrans htotal (dedupNews items)
  have hsorted2 : List.Pairwise (fun a b => tsKey b ≤ tsKey a)
      ((dedupNews items).mergeSort newsDescLe) := by
    refine hsorted.imp ?_
    intro a b h
    simp only [newsDescLe, decide_eq_true_eq] at h
    exact h
  have htake : List.Pairwise (fun a b => tsKey b ≤ tsKey a)
      (news_enriched_clean items k) := by
    unfold news_enriched_clean
    exact List.Pairwise.sublist (List.take_sublist _ _) hsorted2
  refine ⟨?_, htake, htake.imp ?_, ?_, itemWeight_le_one now⟩
  · unfold news_enriched_clean
    exact List.length_take_le k ((dedupNews items).mergeSort newsDescLe)
  · intro a b hh hpos
    exact lt_of_lt_of_le hpos hh
  · unfold itemWeight
    norm_num

def datedNeg : NewsItem := ⟨some "pre-epoch story", some "https://x.example/a", some (-100)⟩
def undatedItem : NewsItem := ⟨some "undated story", some "https://y.example/b", none⟩

/-- C10 counterexample: undated items are *not* always sorted last — keyed 0,
an undated item sorts ahead of a pre-epoch (negative-timestamp) item, here
coming first in the list handed to analysis. -/
theorem undated_not_sorted_last :
    news_enriched_clean [undatedItem, datedNeg] 5 = [undatedItem, datedNeg] ∧
    undatedItem.pubTs = none ∧ datedNeg.pubTs = some (-100) := by
  refine ⟨?_, rfl, rfl⟩
  unfold news_enriched_clean
  have hd : dedupNews [undatedItem, datedNeg] = [undatedItem, datedNeg] := by decide
  rw [hd]
  have hs : List.Pairwise (fun a b => newsDescLe a b) [undatedItem, datedNeg] := by
    decide
  rw [List.mergeSort_of_sorted hs]
  rfl
